import Mathlib

/-!
Verification of the Reservator backup scheduler (`main.py`) against its
natural-language specification.  The Python program's scheduling core is
shallowly embedded below: `datetime` values become a `DateTime` structure of
plain naturals, `datetime`/`calendar` arithmetic becomes the explicit Gregorian
calendar functions `daysInMonth`/`daysBeforeMonth`/`daysBeforeYear`, and every
operation of the core (`BackupTask.calculate_next_run`, the scheduler loop's
due-check-and-claim step, `BackupApp.update_status`, `BackupApp.run_task`,
`BackupApp.add_to_zip`, task persistence and editing) is translated from the
source into an executable Lean definition.
-/

namespace Reservator

/-- Embeds Python's leap-year rule as used by `calendar.monthrange` and
`datetime`: divisible by 4 and not by 100, or divisible by 400. -/
def isLeap (y : Nat) : Bool :=
  (y % 4 == 0 && y % 100 != 0) || y % 400 == 0

/-- One in a leap year, zero otherwise. -/
def leapAdj (y : Nat) : Nat := if isLeap y then 1 else 0

/-- Embeds `calendar.monthrange(y, m)[1]`: the number of days of month `m`
in year `y` (0 for an out-of-range month index). -/
def daysInMonth (y m : Nat) : Nat :=
  if m = 1 then 31
  else if m = 2 then 28 + leapAdj y
  else if m = 3 then 31
  else if m = 4 then 30
  else if m = 5 then 31
  else if m = 6 then 30
  else if m = 7 then 31
  else if m = 8 then 31
  else if m = 9 then 30
  else if m = 10 then 31
  else if m = 11 then 30
  else if m = 12 then 31
  else 0

/-- Days of year `y` that precede month `m` (cumulative month lengths). -/
def daysBeforeMonth (y : Nat) : Nat → Nat
  | 0 => 0
  | 1 => 0
  | m + 1 => daysBeforeMonth y m + daysInMonth y m

/-- Days before January 1 of year `y`, counted from year 1 (the count used by
Python's `date.toordinal`). -/
def daysBeforeYear (y : Nat) : Nat :=
  365 * (y - 1) + (y - 1) / 4 + (y - 1) / 400 - (y - 1) / 100

/-- Embeds Python's `date(y, m, d).toordinal()`: day 1 is 0001-01-01. -/
def dateOrdinal (y m d : Nat) : Nat :=
  daysBeforeYear y + daysBeforeMonth y m + d

/-- Embeds a Python `datetime.datetime` value as its seven components. -/
structure DateTime where
  year : Nat
  month : Nat
  day : Nat
  hour : Nat
  minute : Nat
  second : Nat
  microsecond : Nat
deriving DecidableEq, Repr

/-- Microseconds from 0001-01-01T00:00:00.  On valid datetimes, comparison of
`dtAbs` values coincides with Python's (chronological) `datetime` comparison,
and Python's `t1 - t2` is the signed difference of the `dtAbs` values. -/
def dtAbs (t : DateTime) : Nat :=
  ((dateOrdinal t.year t.month t.day - 1) * 86400
      + t.hour * 3600 + t.minute * 60 + t.second) * 1000000
    + t.microsecond

/-- The field ranges Python's `datetime` constructor enforces (year capped at
9999 in Python; the cap plays no role in any claim and is not modeled). -/
def Valid (t : DateTime) : Prop :=
  1 ≤ t.year ∧ 1 ≤ t.month ∧ t.month ≤ 12 ∧ 1 ≤ t.day ∧
    t.day ≤ daysInMonth t.year t.month ∧ t.hour ≤ 23 ∧ t.minute ≤ 59 ∧
    t.second ≤ 59 ∧ t.microsecond ≤ 999999

instance (t : DateTime) : Decidable (Valid t) := by
  unfold Valid; infer_instance

/-- Embeds Python's `date.weekday()` (Monday = 0): 0001-01-01 was a Monday. -/
def pyWeekday (t : DateTime) : Nat :=
  (dateOrdinal t.year t.month t.day + 6) % 7

/-- Embeds `t + timedelta(days=1)` by normalizing the successor day. -/
def addDay (t : DateTime) : DateTime :=
  if t.day < daysInMonth t.year t.month then { t with day := t.day + 1 }
  else if t.month < 12 then { t with month := t.month + 1, day := 1 }
  else { t with year := t.year + 1, month := 1, day := 1 }

/-- Embeds `t + timedelta(days=n)`. -/
def addDays : Nat → DateTime → DateTime
  | 0, t => t
  | n + 1, t => addDays n (addDay t)

/-- Embeds `t + timedelta(hours=1)`. -/
def addHour (t : DateTime) : DateTime :=
  if t.hour < 23 then { t with hour := t.hour + 1 }
  else { addDay t with hour := 0 }

/-- Embeds `t + timedelta(minutes=5)`, the fallback of the exception handler
in `BackupTask.calculate_next_run`. -/
def addFiveMinutes (t : DateTime) : DateTime :=
  if t.minute + 5 ≤ 59 then { t with minute := t.minute + 5 }
  else { addHour t with minute := t.minute + 5 - 60 }

theorem one_le_daysInMonth (y m : Nat) (h1 : 1 ≤ m) (h2 : m ≤ 12) :
    1 ≤ daysInMonth y m := by
  interval_cases m <;> simp [daysInMonth]
  omega

theorem daysInMonth_twelve (y : Nat) : daysInMonth y 12 = 31 := by
  simp [daysInMonth]

theorem daysBeforeMonth_one (y : Nat) : daysBeforeMonth y 1 = 0 := rfl

theorem daysBeforeMonth_twelve (y : Nat) :
    daysBeforeMonth y 12 = 334 + leapAdj y := by
  show daysBeforeMonth y 11 + daysInMonth y 11 = 334 + leapAdj y
  simp only [show (11 : Nat) = 10 + 1 from rfl, show (10 : Nat) = 9 + 1 from rfl,
    show (9 : Nat) = 8 + 1 from rfl, show (8 : Nat) = 7 + 1 from rfl,
    show (7 : Nat) = 6 + 1 from rfl, show (6 : Nat) = 5 + 1 from rfl,
    show (5 : Nat) = 4 + 1 from rfl, show (4 : Nat) = 3 + 1 from rfl,
    show (3 : Nat) = 2 + 1 from rfl, show (2 : Nat) = 1 + 1 from rfl]
  simp [daysBeforeMonth, daysInMonth]
  omega

theorem daysBeforeMonth_succ (y m : Nat) (h1 : 1 ≤ m) :
    daysBeforeMonth y (m + 1) = daysBeforeMonth y m + daysInMonth y m := by
  obtain ⟨k, rfl⟩ : ∃ k, m = k + 1 := ⟨m - 1, by omega⟩
  rfl

set_option maxHeartbeats 4000000 in
theorem daysBeforeYear_succ (y : Nat) (hy : 1 ≤ y) :
    daysBeforeYear (y + 1) = daysBeforeYear y + 365 + leapAdj y := by
  unfold daysBeforeYear leapAdj isLeap
  simp only [Bool.or_eq_true, Bool.and_eq_true, beq_iff_eq, bne_iff_ne, ne_eq]
  split_ifs with h <;> omega

theorem one_le_dateOrdinal (y m d : Nat) (hd : 1 ≤ d) :
    1 ≤ dateOrdinal y m d := by
  unfold dateOrdinal; omega

theorem daysInMonth_one (y : Nat) : daysInMonth y 1 = 31 := rfl

theorem addDay_hour (t : DateTime) : (addDay t).hour = t.hour := by
  unfold addDay; split_ifs <;> rfl

theorem addDay_minute (t : DateTime) : (addDay t).minute = t.minute := by
  unfold addDay; split_ifs <;> rfl

theorem addDay_second (t : DateTime) : (addDay t).second = t.second := by
  unfold addDay; split_ifs <;> rfl

theorem addDay_microsecond (t : DateTime) :
    (addDay t).microsecond = t.microsecond := by
  unfold addDay; split_ifs <;> rfl

theorem dateOrdinal_addDay (t : DateTime) (hv : Valid t) :
    dateOrdinal (addDay t).year (addDay t).month (addDay t).day
      = dateOrdinal t.year t.month t.day + 1 := by
  obtain ⟨hy, hm1, hm2, hd1, hd2, hh, hmin, hs, hus⟩ := hv
  unfold addDay
  split_ifs with h1 h2
  · simp [dateOrdinal]
    omega
  · have hsucc := daysBeforeMonth_succ t.year t.month hm1
    simp only [dateOrdinal]
    simp
    omega
  · have hm12 : t.month = 12 := by omega
    have hy2 := daysBeforeYear_succ t.year hy
    simp only [dateOrdinal]
    simp
    rw [hm12] at h1 ⊢
    rw [daysInMonth_twelve] at h1
    rw [daysBeforeMonth_twelve, daysBeforeMonth_one]
    rw [hm12, daysInMonth_twelve] at hd2
    omega

theorem Valid_addDay (t : DateTime) (hv : Valid t) : Valid (addDay t) := by
  obtain ⟨hy, hm1, hm2, hd1, hd2, hh, hmin, hs, hus⟩ := hv
  unfold addDay
  split_ifs with h1 h2
  · exact ⟨hy, hm1, hm2, by simp, by simp; omega, hh, hmin, hs, hus⟩
  · refine ⟨hy, by simp, by simp; omega, by simp, ?_, hh, hmin, hs, hus⟩
    simp
    exact one_le_daysInMonth _ _ (by omega) (by omega)
  · refine ⟨by simp, by simp, by simp, by simp, ?_, hh, hmin, hs, hus⟩
    simp [daysInMonth_one]

theorem dtAbs_addDay (t : DateTime) (hv : Valid t) :
    dtAbs (addDay t) = dtAbs t + 86400000000 := by
  have ho := dateOrdinal_addDay t hv
  have hpos := one_le_dateOrdinal t.year t.month t.day hv.2.2.2.1
  have hh := addDay_hour t
  have hmin := addDay_minute t
  have hs := addDay_second t
  have hus := addDay_microsecond t
  unfold dtAbs
  rw [ho, hh, hmin, hs, hus]
  omega

theorem Valid_addDays (n : Nat) (t : DateTime) (hv : Valid t) :
    Valid (addDays n t) := by
  induction n generalizing t with
  | zero => exact hv
  | succ k ih =>
    simp only [addDays]
    exact ih _ (Valid_addDay t hv)

theorem dtAbs_addDays (n : Nat) (t : DateTime) (hv : Valid t) :
    dtAbs (addDays n t) = dtAbs t + n * 86400000000 := by
  induction n generalizing t with
  | zero => simp [addDays]
  | succ k ih =>
    simp only [addDays]
    rw [ih _ (Valid_addDay t hv), dtAbs_addDay t hv]
    ring

theorem addHour_minute (t : DateTime) : (addHour t).minute = t.minute := by
  unfold addHour
  split_ifs
  · rfl
  · simp [addDay_minute]

theorem addHour_second (t : DateTime) : (addHour t).second = t.second := by
  unfold addHour
  split_ifs
  · rfl
  · simp [addDay_second]

theorem addHour_microsecond (t : DateTime) :
    (addHour t).microsecond = t.microsecond := by
  unfold addHour
  split_ifs
  · rfl
  · simp [addDay_microsecond]

theorem dtAbs_addHour (t : DateTime) (hv : Valid t) :
    dtAbs (addHour t) = dtAbs t + 3600000000 := by
  unfold addHour
  split_ifs with h
  · unfold dtAbs
    simp
    omega
  · have h23 : t.hour = 23 := by
      have := hv.2.2.2.2.2.1
      omega
    have ho := dateOrdinal_addDay t hv
    have hpos := one_le_dateOrdinal t.year t.month t.day hv.2.2.2.1
    have hmin := addDay_minute t
    have hs := addDay_second t
    have hus := addDay_microsecond t
    unfold dtAbs
    simp
    rw [ho, hmin, hs, hus, h23]
    omega

theorem dtAbs_addFiveMinutes (t : DateTime) (hv : Valid t) :
    dtAbs (addFiveMinutes t) = dtAbs t + 300000000 := by
  unfold addFiveMinutes
  split_ifs with h
  · unfold dtAbs
    simp
    omega
  · have hm : 55 ≤ t.minute := by omega
    have h60 := dtAbs_addHour t hv
    have hm2 := addHour_minute t
    have hs2 := addHour_second t
    have hu2 := addHour_microsecond t
    unfold dtAbs at h60 ⊢
    simp
    rw [hm2, hs2, hu2] at h60
    rw [hs2, hu2]
    omega

/-- Embeds the `time_params` attribute of `BackupTask`: a bare minute for
hourly tasks, or a tuple of 2 or 3 components for the other kinds. -/
inductive TimeParams where
  | minuteOnly (minute : Nat)
  | hm (hour minute : Nat)
  | whm (weekday hour minute : Nat)
  | dhm (day hour minute : Nat)
deriving DecidableEq, Repr

/-- Embeds the hourly branch of `BackupTask.calculate_next_run`:
`next_run = now.replace(minute=time_params, second=0, microsecond=0)`, plus one
hour when `next_run <= now`.  A minute parameter over 59 makes `replace` raise
ValueError, which the function-level handler turns into `now + 5 minutes`. -/
def hourlyNext (m : Nat) (now : DateTime) : DateTime :=
  if m ≤ 59 then
    if dtAbs { now with minute := m, second := 0, microsecond := 0 } ≤ dtAbs now then
      addHour { now with minute := m, second := 0, microsecond := 0 }
    else { now with minute := m, second := 0, microsecond := 0 }
  else addFiveMinutes now

/-- Embeds the daily branch: `now.replace(hour=hour, minute=minute, second=0,
microsecond=0)`, plus one day when the result is `<= now`; out-of-range
parameters raise in `replace` and fall back to `now + 5 minutes`. -/
def dailyNext (h m : Nat) (now : DateTime) : DateTime :=
  if h ≤ 23 ∧ m ≤ 59 then
    if dtAbs { now with hour := h, minute := m, second := 0, microsecond := 0 } ≤ dtAbs now then
      addDay { now with hour := h, minute := m, second := 0, microsecond := 0 }
    else { now with hour := h, minute := m, second := 0, microsecond := 0 }
  else addFiveMinutes now

/-- Embeds `days_ahead = (weekday - now.weekday()) % 7` (Python's `%` on ints
returns a value in `[0, 7)`). -/
def daysAhead (w : Nat) (now : DateTime) : Nat :=
  (((w : Int) - (pyWeekday now : Int)) % 7).toNat

/-- The weekly branch's candidate before the `<= now` test:
`now.replace(hour=hour, minute=minute, second=0, microsecond=0)
 + timedelta(days=days_ahead)`. -/
def weeklyBase (w h m : Nat) (now : DateTime) : DateTime :=
  addDays (daysAhead w now)
    { now with hour := h, minute := m, second := 0, microsecond := 0 }

/-- Embeds the weekly branch; adds `timedelta(weeks=1)` when the candidate is
`<= now`; out-of-range hour/minute raise in `replace` and fall back. -/
def weeklyNext (w h m : Nat) (now : DateTime) : DateTime :=
  if h ≤ 23 ∧ m ≤ 59 then
    if dtAbs (weeklyBase w h m now) ≤ dtAbs now then addDays 7 (weeklyBase w h m now)
    else weeklyBase w h m now
  else addFiveMinutes now

/-- Embeds `next_year` of the monthly branch: the month after `now`, rolling the year
over December. -/
def nextMonthYear (now : DateTime) : Nat :=
  if now.month + 1 > 12 then now.year + 1 else now.year

/-- Embeds `next_month` of the monthly branch. -/
def nextMonthMonth (now : DateTime) : Nat :=
  if now.month + 1 > 12 then 1 else now.month + 1

/-- Embeds the monthly branch's `try datetime(...) except ValueError: clamp`:
`datetime(y, m, d, ...)` raises ValueError exactly when `d` is not in
`[1, monthrange(y, m)[1]]`, in which case the day becomes the month's last
day. -/
def clampedDay (d y m : Nat) : Nat :=
  if 1 ≤ d ∧ d ≤ daysInMonth y m then d else daysInMonth y m

/-- The monthly branch's candidate `next_run`: day `d` (clamped) of the month
after `now`, at `h:mi`. -/
def monthlyNextTarget (d h mi : Nat) (now : DateTime) : DateTime :=
  ⟨nextMonthYear now, nextMonthMonth now,
    clampedDay d (nextMonthYear now) (nextMonthMonth now), h, mi, 0, 0⟩

/-- The monthly branch of `BackupTask.calculate_next_run`, incl. its
self-recursion `return next_run if next_run > now else
self.calculate_next_run(now + timedelta(days=1))` (the frequency is still
"monthly" on re-entry, so the recursion stays in this branch).  The `fuel`
argument bounds the recursion purely as a termination device:
`monthlyNextTarget` always lies in the month after `now`, so for every valid
`now` the recursive branch is never taken and the result is independent of
the fuel.  An out-of-range hour or minute makes both `datetime(...)` calls
raise ValueError, which the function-level handler turns into the 5-minute
fallback. -/
def monthlyNextAux : Nat → Nat → Nat → Nat → DateTime → DateTime
  | 0, _, _, _, now => addFiveMinutes now
  | fuel + 1, d, h, mi, now =>
    if h ≤ 23 ∧ mi ≤ 59 then
      if dtAbs now < dtAbs (monthlyNextTarget d h mi now) then
        monthlyNextTarget d h mi now
      else monthlyNextAux fuel d h mi (addDay now)
    else addFiveMinutes now

/-- Dispatch of the hourly branch on the shape of `time_params`: a tuple makes
`replace(minute=...)` raise TypeError, landing in the fallback. -/
def hourlyCase (tp : TimeParams) (now : DateTime) : DateTime :=
  match tp with
  | .minuteOnly m => hourlyNext m now
  | _ => addFiveMinutes now

/-- Dispatch of the daily branch: `hour, minute = self.time_params` raises
unless `time_params` is a pair. -/
def dailyCase (tp : TimeParams) (now : DateTime) : DateTime :=
  match tp with
  | .hm h m => dailyNext h m now
  | _ => addFiveMinutes now

/-- Dispatch of the weekly branch: unpacking requires a triple. -/
def weeklyCase (tp : TimeParams) (now : DateTime) : DateTime :=
  match tp with
  | .whm w h m => weeklyNext w h m now
  | _ => addFiveMinutes now

/-- Dispatch of the monthly branch: unpacking requires a triple. -/
def monthlyCase (fuel : Nat) (tp : TimeParams) (now : DateTime) : DateTime :=
  match tp with
  | .dhm d h mi => monthlyNextAux fuel d h mi now
  | _ => addFiveMinutes now

/-- Embeds `BackupTask.calculate_next_run(self, now)`: the `frequency` string
is dispatched exactly as in the source's `if/elif` chain; a `time_params`
value of the wrong shape raises (TypeError/ValueError) inside the `try` block
and the handler returns `now + timedelta(minutes=5)`; an unrecognized
frequency reaches the final `return now`. -/
def calculate_next_run (freq : String) (tp : TimeParams) (now : DateTime) :
    DateTime :=
  if freq = "hourly" then hourlyCase tp now
  else if freq = "daily" then dailyCase tp now
  else if freq = "weekly" then weeklyCase tp now
  else if freq = "monthly" then monthlyCase 1000 tp now
  else now

theorem calc_hourly (m : Nat) (now : DateTime) :
    calculate_next_run "hourly" (.minuteOnly m) now = hourlyNext m now := rfl

theorem calc_daily (h m : Nat) (now : DateTime) :
    calculate_next_run "daily" (.hm h m) now = dailyNext h m now := rfl

theorem calc_weekly (w h m : Nat) (now : DateTime) :
    calculate_next_run "weekly" (.whm w h m) now = weeklyNext w h m now := rfl

theorem calc_monthly (d h mi : Nat) (now : DateTime) :
    calculate_next_run "monthly" (.dhm d h mi) now =
      if h ≤ 23 ∧ mi ≤ 59 then
        if dtAbs now < dtAbs (monthlyNextTarget d h mi now) then
          monthlyNextTarget d h mi now
        else monthlyNextAux 999 d h mi (addDay now)
      else addFiveMinutes now := rfl

theorem addFiveMinutes_gt (t : DateTime) (hv : Valid t) :
    dtAbs t < dtAbs (addFiveMinutes t) := by
  rw [dtAbs_addFiveMinutes t hv]
  omega

theorem Valid_replace_min (t : DateTime) (hv : Valid t) (m' : Nat)
    (hm : m' ≤ 59) :
    Valid { t with minute := m', second := 0, microsecond := 0 } := by
  obtain ⟨hy, h1, h2, h3, h4, h5, _, _, _⟩ := hv
  exact ⟨hy, h1, h2, h3, h4, h5, hm, by simp, by simp⟩

theorem Valid_replace_time (t : DateTime) (hv : Valid t) (h' m' : Nat)
    (hh : h' ≤ 23) (hm : m' ≤ 59) :
    Valid { t with hour := h', minute := m', second := 0, microsecond := 0 } := by
  obtain ⟨hy, h1, h2, h3, h4, _, _, _, _⟩ := hv
  exact ⟨hy, h1, h2, h3, h4, hh, hm, by simp, by simp⟩

theorem hourlyNext_gt (m : Nat) (t : DateTime) (hv : Valid t) :
    dtAbs t < dtAbs (hourlyNext m t) := by
  unfold hourlyNext
  split_ifs with hm hle
  · rw [dtAbs_addHour _ (Valid_replace_min t hv m hm)]
    obtain ⟨hy, h1, h2, h3, h4, h5, h6, h7, h8⟩ := hv
    unfold dtAbs
    simp
    omega
  · omega
  · exact addFiveMinutes_gt t hv

theorem dailyNext_gt (h m : Nat) (t : DateTime) (hv : Valid t) :
    dtAbs t < dtAbs (dailyNext h m t) := by
  unfold dailyNext
  split_ifs with hg hle
  · rw [dtAbs_addDay _ (Valid_replace_time t hv h m hg.1 hg.2)]
    obtain ⟨hy, h1, h2, h3, h4, h5, h6, h7, h8⟩ := hv
    unfold dtAbs
    simp
    omega
  · omega
  · exact addFiveMinutes_gt t hv

theorem weeklyNext_gt (w h m : Nat) (t : DateTime) (hv : Valid t) :
    dtAbs t < dtAbs (weeklyNext w h m t) := by
  unfold weeklyNext
  split_ifs with hg hle
  · have hvr := Valid_replace_time t hv h m hg.1 hg.2
    unfold weeklyBase at hle ⊢
    rw [dtAbs_addDays 7 _ (Valid_addDays _ _ hvr)]
    rw [dtAbs_addDays _ _ hvr] at hle ⊢
    obtain ⟨hy, h1, h2, h3, h4, h5, h6, h7, h8⟩ := hv
    unfold dtAbs at hle ⊢
    simp at hle ⊢
    omega
  · omega
  · exact addFiveMinutes_gt t hv

theorem dateOrdinal_nextMonth (t : DateTime) (hv : Valid t) :
    dateOrdinal t.year t.month t.day
      < dateOrdinal (nextMonthYear t) (nextMonthMonth t) 1 := by
  obtain ⟨hy, hm1, hm2, hd1, hd2, _, _, _, _⟩ := hv
  unfold nextMonthYear nextMonthMonth
  split_ifs with h12
  · have hm : t.month = 12 := by omega
    unfold dateOrdinal
    rw [daysBeforeMonth_one, daysBeforeYear_succ t.year hy, hm,
      daysBeforeMonth_twelve]
    rw [hm, daysInMonth_twelve] at hd2
    omega
  · unfold dateOrdinal
    rw [daysBeforeMonth_succ t.year t.month hm1]
    omega

theorem one_le_nextMonthMonth (t : DateTime) : 1 ≤ nextMonthMonth t := by
  unfold nextMonthMonth
  split_ifs <;> omega

theorem nextMonthMonth_le (t : DateTime) (hm : t.month ≤ 12) :
    nextMonthMonth t ≤ 12 := by
  unfold nextMonthMonth
  split_ifs <;> omega

theorem one_le_clampedDay (d y m : Nat) (h1 : 1 ≤ m) (h2 : m ≤ 12) :
    1 ≤ clampedDay d y m := by
  unfold clampedDay
  split_ifs with hc
  · omega
  · exact one_le_daysInMonth y m h1 h2

theorem monthlyNextTarget_gt (d h mi : Nat) (t : DateTime) (hv : Valid t) :
    dtAbs t < dtAbs (monthlyNextTarget d h mi t) := by
  have hord := dateOrdinal_nextMonth t hv
  have hdd1 : 1 ≤ clampedDay d (nextMonthYear t) (nextMonthMonth t) :=
    one_le_clampedDay _ _ _ (one_le_nextMonthMonth t) (nextMonthMonth_le t hv.2.2.1)
  have hstep : dateOrdinal t.year t.month t.day + 1
      ≤ dateOrdinal (nextMonthYear t) (nextMonthMonth t)
          (clampedDay d (nextMonthYear t) (nextMonthMonth t)) := by
    unfold dateOrdinal at hord ⊢
    omega
  obtain ⟨hy, hm1, hm2, hd1, hd2, hh, hmin, hs, hus⟩ := hv
  have hpos := one_le_dateOrdinal t.year t.month t.day hd1
  unfold monthlyNextTarget dtAbs
  simp
  omega

/-- Embeds a `BackupTask` object's attributes. -/
structure BackupTask where
  name : String
  source : String
  destination : String
  compression : Bool
  frequency : String
  time_params : TimeParams
  last_run : Option DateTime
  next_run : DateTime
deriving DecidableEq, Repr

/-- Embeds `BackupTask.__init__` executed at time `now`: stores the six
arguments, sets `last_run = None` and `next_run = self.calculate_next_run()`. -/
def mkBackupTask (name source destination : String) (compression : Bool)
    (frequency : String) (tp : TimeParams) (now : DateTime) : BackupTask :=
  ⟨name, source, destination, compression, frequency, tp, none,
    calculate_next_run frequency tp now⟩

/-- The scheduler loop's due test `task.next_run <= now`
(`BackupApp.scheduler_loop`). -/
def isDue (task : BackupTask) (now : DateTime) : Bool :=
  decide (dtAbs task.next_run ≤ dtAbs now)

/-- Embeds one task's share of a scheduler tick (`BackupApp.scheduler_loop`):
a due task is claimed before dispatch — `task.last_run = now;
task.next_run = task.calculate_next_run()` (the source's argumentless call
recomputes from the tick's current time, this tick's `now`). -/
def claimTask (task : BackupTask) (now : DateTime) : BackupTask :=
  if isDue task now then
    { task with
      last_run := some now,
      next_run := calculate_next_run task.frequency task.time_params now }
  else task

/-- The next-task portion of the status display. -/
inductive NextTaskInfo where
  | noTasks
  | dueNow
  | countdown (hours minutes : Nat)
deriving DecidableEq, Repr

/-- Embeds `min((t.next_run for t in self.tasks), default=None)` from
`BackupApp.update_status` (every task's `next_run` is a datetime, hence
truthy, so the source's truthiness filter keeps all of them). -/
def minNextRun (tasks : List BackupTask) : Option DateTime :=
  match tasks.map (fun t => t.next_run) with
  | [] => none
  | x :: xs => some (xs.foldl (fun a b => if dtAbs b < dtAbs a then b else a) x)

/-- Embeds the next-task label of `BackupApp.update_status`:
`delta = nearest - now`; when `delta.total_seconds() > 0` the label shows
`divmod(delta.seconds, 3600)` hours and `remainder // 60` minutes, where
`delta.seconds` is the timedelta's within-day seconds component
(`(total microseconds // 10^6) % 86400` for a positive delta); otherwise the
label is the due-now text. -/
def update_status_next (tasks : List BackupTask) (now : DateTime) :
    NextTaskInfo :=
  match minNextRun tasks with
  | none => .noTasks
  | some nearest =>
    if dtAbs now < dtAbs nearest then
      .countdown ((dtAbs nearest - dtAbs now) / 1000000 % 86400 / 3600)
        ((dtAbs nearest - dtAbs now) / 1000000 % 86400 % 3600 / 60)
    else .dueNow

/-- Embeds the dict produced by `BackupTask.to_dict` (the `last_run` datetime
stands for its `isoformat()` string, `none` for JSON null; `next_run` is not
stored). -/
structure TaskRecord where
  name : String
  source : String
  destination : String
  compression : Bool
  frequency : String
  time_params : TimeParams
  last_run : Option DateTime
deriving DecidableEq, Repr

/-- Embeds `BackupTask.to_dict`. -/
def to_dict (t : BackupTask) : TaskRecord :=
  ⟨t.name, t.source, t.destination, t.compression, t.frequency, t.time_params,
    t.last_run⟩

/-- Embeds one item's reload in `BackupApp.load_tasks` at load time
`loadTime`: construct the `BackupTask` (whose `__init__` computes a
`next_run`), then restore `last_run` from the record and assign
`task.next_run = task.calculate_next_run()` once more. -/
def loadTask (r : TaskRecord) (loadTime : DateTime) : BackupTask :=
  { mkBackupTask r.name r.source r.destination r.compression r.frequency
      r.time_params loadTime with
    last_run := r.last_run,
    next_run := calculate_next_run r.frequency r.time_params loadTime }

/-- Embeds `BackupApp.edit_task`'s registry mutation
`self.tasks[index] = dialog.result`; a confirmed dialog's `result` is a
freshly constructed `BackupTask` (`TaskDialog.on_ok`). -/
def edit_task (tasks : List BackupTask) (index : Nat) (result : BackupTask) :
    List BackupTask :=
  tasks.set index result

/-- Embeds the effect of one `BackupApp.run_task` invocation on the shared
`running_tasks` counter: the spawned `backup` closure's `finally` block runs
`self.running_tasks -= 1` exactly once per invocation (success or failure),
and no statement anywhere in `main.py` increments `running_tasks`. -/
def run_task_counter (running_tasks : Int) : Int := running_tasks - 1

/-- A source file as the archive step sees it: its archive name and whether
opening it for reading succeeds (`false` models PermissionError). -/
structure SrcFile where
  name : String
  readable : Bool
deriving DecidableEq, Repr

/-- Whether the archive step ran to completion or was cut short by an
exception that propagated to the task-level handler. -/
inductive ZipOutcome where
  | completed
  | abortedByError
deriving DecidableEq, Repr

/-- Embeds the compressed directory branch of `BackupApp.run_task`'s inner
`backup`: `zipf.write` is called directly inside the `os.walk` loop (not via
`add_to_zip`), so the first unreadable file raises out of the loop to
`backup`'s `except`, which logs one task-level error; only the files already
written remain in the archive. -/
def run_task_zip_walk : List SrcFile → List String × ZipOutcome
  | [] => ([], .completed)
  | f :: rest =>
    if f.readable then
      ((run_task_zip_walk rest).1.cons f.name, (run_task_zip_walk rest).2)
    else ([], .abortedByError)

/-- Embeds a directory walk performed through `BackupApp.add_to_zip`
(as `BackupApp.create_zip` does), whose per-file `try/except` logs and skips a
failing file; returns the archived names and the count of logged item-level
errors. -/
def add_to_zip_walk : List SrcFile → List String × Nat
  | [] => ([], 0)
  | f :: rest =>
    if f.readable then
      ((add_to_zip_walk rest).1.cons f.name, (add_to_zip_walk rest).2)
    else ((add_to_zip_walk rest).1, (add_to_zip_walk rest).2 + 1)

/-- The in-range parameter shapes of the four recognized recurrence kinds
(the ranges `TaskDialog.on_ok` validates). -/
def validParams (freq : String) (tp : TimeParams) : Bool :=
  if freq = "hourly" then
    match tp with
    | .minuteOnly m => decide (m ≤ 59)
    | _ => false
  else if freq = "daily" then
    match tp with
    | .hm h m => decide (h ≤ 23 ∧ m ≤ 59)
    | _ => false
  else if freq = "weekly" then
    match tp with
    | .whm w h m => decide (w ≤ 6 ∧ h ≤ 23 ∧ m ≤ 59)
    | _ => false
  else if freq = "monthly" then
    match tp with
    | .dhm d h m => decide (1 ≤ d ∧ d ≤ 31 ∧ h ≤ 23 ∧ m ≤ 59)
    | _ => false
  else false

/-- True exactly when executing `calculate_next_run`'s `try` block raises
internally (so the `except` handler produces the 5-minute fallback): a
`time_params` of the wrong shape for the branch, or an out-of-range
hour/minute.  An out-of-range monthly day does not raise — the ValueError
from `datetime(...)` is consumed by the clamping `except ValueError`. -/
def calc_next_run_raises (freq : String) (tp : TimeParams) : Bool :=
  if freq = "hourly" then
    match tp with
    | .minuteOnly m => decide (59 < m)
    | _ => true
  else if freq = "daily" then
    match tp with
    | .hm h m => decide (23 < h ∨ 59 < m)
    | _ => true
  else if freq = "weekly" then
    match tp with
    | .whm _ h m => decide (23 < h ∨ 59 < m)
    | _ => true
  else if freq = "monthly" then
    match tp with
    | .dhm _ h m => decide (23 < h ∨ 59 < m)
    | _ => true
  else false

theorem calcNextRun_gt (freq : String) (tp : TimeParams) (t : DateTime)
    (hv : Valid t)
    (hf : freq = "hourly" ∨ freq = "daily" ∨ freq = "weekly" ∨
      freq = "monthly") :
    dtAbs t < dtAbs (calculate_next_run freq tp t) := by
  rcases hf with hf | hf | hf | hf <;> subst hf
  · cases tp with
    | minuteOnly m => rw [calc_hourly]; exact hourlyNext_gt m t hv
    | hm a b => exact addFiveMinutes_gt t hv
    | whm a b c => exact addFiveMinutes_gt t hv
    | dhm a b c => exact addFiveMinutes_gt t hv
  · cases tp with
    | minuteOnly m => exact addFiveMinutes_gt t hv
    | hm a b => rw [calc_daily]; exact dailyNext_gt a b t hv
    | whm a b c => exact addFiveMinutes_gt t hv
    | dhm a b c => exact addFiveMinutes_gt t hv
  · cases tp with
    | minuteOnly m => exact addFiveMinutes_gt t hv
    | hm a b => exact addFiveMinutes_gt t hv
    | whm a b c => rw [calc_weekly]; exact weeklyNext_gt a b c t hv
    | dhm a b c => exact addFiveMinutes_gt t hv
  · cases tp with
    | minuteOnly m => exact addFiveMinutes_gt t hv
    | hm a b => exact addFiveMinutes_gt t hv
    | whm a b c => exact addFiveMinutes_gt t hv
    | dhm d h mi =>
      rw [calc_monthly]
      by_cases hg : h ≤ 23 ∧ mi ≤ 59
      · rw [if_pos hg, if_pos (monthlyNextTarget_gt d h mi t hv)]
        exact monthlyNextTarget_gt d h mi t hv
      · rw [if_neg hg]
        exact addFiveMinutes_gt t hv

/-- C1: the claim states that `run_task` increments `running_tasks` before the
backup starts and decrements it exactly once when the work finishes, so the
counter always equals the number of running backups and is never negative.
The code never increments the counter anywhere: starting from the initial
value 0 set in `BackupApp.__init__`, a single `run_task` invocation leaves the
counter at -1, which is negative. -/
theorem C1_running_tasks_goes_negative :
    run_task_counter 0 = -1 ∧ run_task_counter 0 < 0 := by
  exact ⟨rfl, by decide⟩

/-- C2: the claim states that in Compressed mode each unreadable file is
caught, logged and skipped individually and the remaining files are still
archived.  For a directory whose walk order is a readable `a`, an unreadable
`b` and a readable `c`, the executed compressed branch of `run_task` (which
calls `zipf.write` directly, not `add_to_zip`) aborts at `b` with one
task-level error and the archive holds only `a`; the per-file `add_to_zip`
path — present in the code but only reachable from the never-called
`create_zip` — would have archived `a` and `c` with exactly one item-level
error, as the claim describes. -/
theorem C2_compressed_aborts_on_unreadable :
    run_task_zip_walk [⟨"a", true⟩, ⟨"b", false⟩, ⟨"c", true⟩]
        = (["a"], .abortedByError) ∧
      add_to_zip_walk [⟨"a", true⟩, ⟨"b", false⟩, ⟨"c", true⟩]
        = (["a", "c"], 1) := by
  exact ⟨rfl, rfl⟩

/-- C3: claiming is idempotent: for every task carrying one of the four
recurrence kinds of the data model and every valid time `now` at which the
task is due (`next_run ≤ now`), the scheduler's due-check-and-claim step sets
`last_run = now` and recomputes `next_run`, after which the same due-check at
the same `now` finds the task not due. -/
theorem C3_claim_idempotent (task : BackupTask) (now : DateTime)
    (hv : Valid now)
    (hf : task.frequency = "hourly" ∨ task.frequency = "daily" ∨
      task.frequency = "weekly" ∨ task.frequency = "monthly")
    (hdue : isDue task now = true) :
    (claimTask task now).last_run = some now ∧
      isDue (claimTask task now) now = false := by
  unfold claimTask
  rw [if_pos hdue]
  refine ⟨rfl, ?_⟩
  unfold isDue
  simp only [decide_eq_false_iff_not, not_le]
  simpa using calcNextRun_gt task.frequency task.time_params now hv hf

/-- Witness for C3: an hourly task due at 2024-01-01T10:00:00 is claimed and
is no longer due at the same instant. -/
theorem C3_claim_idempotent_witness :
    isDue ⟨"docs", "C:/src", "D:/dst", true, "hourly", .minuteOnly 30, none,
        ⟨2024, 1, 1, 9, 30, 0, 0⟩⟩ ⟨2024, 1, 1, 10, 0, 0, 0⟩ = true ∧
      isDue (claimTask ⟨"docs", "C:/src", "D:/dst", true, "hourly",
            .minuteOnly 30, none, ⟨2024, 1, 1, 9, 30, 0, 0⟩⟩
          ⟨2024, 1, 1, 10, 0, 0, 0⟩) ⟨2024, 1, 1, 10, 0, 0, 0⟩ = false :=
  ⟨by decide,
    (C3_claim_idempotent _ _ (by decide) (Or.inl rfl) (by decide)).2⟩

/-- C4 counterexample: a single task whose `next_run` is 25 hours after now.
The claim predicts a countdown of the full remaining duration (25h 0m); the
code computes `divmod(delta.seconds, 3600)` where `delta.seconds` drops whole
days, and shows 1h 0m. -/
theorem C4_counterexample :
    update_status_next
          [⟨"t", "s", "d", true, "daily", .hm 1 0, none,
            ⟨2024, 1, 2, 1, 0, 0, 0⟩⟩] ⟨2024, 1, 1, 0, 0, 0, 0⟩
        = .countdown 1 0 ∧
      dtAbs (⟨2024, 1, 2, 1, 0, 0, 0⟩ : DateTime)
          - dtAbs ⟨2024, 1, 1, 0, 0, 0, 0⟩ = 25 * 3600 * 1000000 ∧
      update_status_next
          [⟨"t", "s", "d", true, "daily", .hm 1 0, none,
            ⟨2024, 1, 2, 1, 0, 0, 0⟩⟩] ⟨2024, 1, 1, 0, 0, 0, 0⟩
        ≠ .countdown 25 0 := by
  refine ⟨by decide, by decide, by decide⟩

/-- C4 amended: the status query reports "due now" whenever the minimum
`next_run` is ≤ now; when it is strictly in the future the countdown shows
the hours and minutes of the remaining duration reduced modulo whole days
(the timedelta's `seconds` component), which equals the full remaining
duration exactly when the nearest task is less than 24 hours away. -/
theorem C4_status_countdown (tasks : List BackupTask) (now nr : DateTime)
    (hmin : minNextRun tasks = some nr) :
    (dtAbs nr ≤ dtAbs now → update_status_next tasks now = .dueNow) ∧
      (dtAbs now < dtAbs nr →
        update_status_next tasks now =
          .countdown ((dtAbs nr - dtAbs now) / 1000000 % 86400 / 3600)
            ((dtAbs nr - dtAbs now) / 1000000 % 86400 % 3600 / 60)) ∧
      (dtAbs now < dtAbs nr → dtAbs nr - dtAbs now < 86400000000 →
        update_status_next tasks now =
          .countdown ((dtAbs nr - dtAbs now) / 1000000 / 3600)
            ((dtAbs nr - dtAbs now) / 1000000 % 3600 / 60)) := by
  unfold update_status_next
  rw [hmin]
  dsimp only
  refine ⟨fun h => ?_, fun h => ?_, fun h hlt => ?_⟩
  · rw [if_neg (not_lt.mpr h)]
  · rw [if_pos h]
  · rw [if_pos h]
    have h2 : (dtAbs nr - dtAbs now) / 1000000 % 86400
        = (dtAbs nr - dtAbs now) / 1000000 :=
      Nat.mod_eq_of_lt (by omega)
    rw [h2]

/-- Witness for C4 (amended): a due task makes the status report due-now. -/
theorem C4_status_countdown_witness :
    minNextRun [⟨"t", "s", "d", true, "hourly", .minuteOnly 0, none,
          ⟨2024, 1, 1, 0, 0, 0, 0⟩⟩]
        = some (⟨2024, 1, 1, 0, 0, 0, 0⟩ : DateTime) ∧
      dtAbs (⟨2024, 1, 1, 0, 0, 0, 0⟩ : DateTime)
          ≤ dtAbs ⟨2024, 1, 1, 5, 0, 0, 0⟩ ∧
      update_status_next [⟨"t", "s", "d", true, "hourly", .minuteOnly 0, none,
          ⟨2024, 1, 1, 0, 0, 0, 0⟩⟩] ⟨2024, 1, 1, 5, 0, 0, 0⟩ = .dueNow :=
  ⟨by decide, by decide,
    (C4_status_countdown
      [⟨"t", "s", "d", true, "hourly", .minuteOnly 0, none,
        ⟨2024, 1, 1, 0, 0, 0, 0⟩⟩]
      ⟨2024, 1, 1, 5, 0, 0, 0⟩ ⟨2024, 1, 1, 0, 0, 0, 0⟩ (by decide)).1
      (by decide)⟩

/-- C5: for every valid reference time and every recurrence among the four
kinds with in-range parameters, `calculate_next_run` raises nothing inside
its `try` block (it is a total function by construction) and returns a
timestamp strictly after the reference time. -/
theorem C5_strictly_future (freq : String) (tp : TimeParams) (t : DateTime)
    (hv : Valid t) (hp : validParams freq tp = true) :
    calc_next_run_raises freq tp = false ∧
      dtAbs t < dtAbs (calculate_next_run freq tp t) := by
  have hf : freq = "hourly" ∨ freq = "daily" ∨ freq = "weekly" ∨
      freq = "monthly" := by
    by_contra hc
    push_neg at hc
    obtain ⟨h1, h2, h3, h4⟩ := hc
    unfold validParams at hp
    rw [if_neg h1, if_neg h2, if_neg h3, if_neg h4] at hp
    exact absurd hp (by simp)
  refine ⟨?_, calcNextRun_gt freq tp t hv hf⟩
  rcases hf with hf | hf | hf | hf <;> subst hf <;> cases tp <;>
    simp_all [validParams, calc_next_run_raises]

/-- Witness for C5: a daily task at 03:00 from reference 2024-06-15T12:00. -/
theorem C5_strictly_future_witness :
    Valid (⟨2024, 6, 15, 12, 0, 0, 0⟩ : DateTime) ∧
      validParams "daily" (.hm 3 0) = true ∧
      (calc_next_run_raises "daily" (.hm 3 0) = false ∧
        dtAbs (⟨2024, 6, 15, 12, 0, 0, 0⟩ : DateTime)
          < dtAbs (calculate_next_run "daily" (.hm 3 0)
              ⟨2024, 6, 15, 12, 0, 0, 0⟩)) :=
  ⟨by decide, by decide,
    C5_strictly_future "daily" (.hm 3 0) _ (by decide) (by decide)⟩

/-- The monthly target is a valid calendar datetime. -/
theorem Valid_monthlyNextTarget (d h mi : Nat) (t : DateTime) (hv : Valid t)
    (hh : h ≤ 23) (hmi : mi ≤ 59) :
    Valid (monthlyNextTarget d h mi t) := by
  refine ⟨?_, one_le_nextMonthMonth t, nextMonthMonth_le t hv.2.2.1,
    one_le_clampedDay _ _ _ (one_le_nextMonthMonth t)
      (nextMonthMonth_le t hv.2.2.1), ?_, hh, hmi,
    by simp [monthlyNextTarget], by simp [monthlyNextTarget]⟩
  · have := hv.1
    show 1 ≤ nextMonthYear t
    unfold nextMonthYear
    split_ifs <;> omega
  · show clampedDay d (nextMonthYear t) (nextMonthMonth t)
      ≤ daysInMonth (nextMonthYear t) (nextMonthMonth t)
    unfold clampedDay
    split_ifs <;> omega

/-- C6: for every valid reference time and monthly parameters with
day ∈ [1,31], hour ≤ 23 and minute ≤ 59, the computed next run is the
requested day of the month after the reference, clamped to that month's last
day when the requested day exceeds the month's length — a valid calendar
date — and the computation takes no failure path. -/
theorem C6_monthly_clamps (d h mi : Nat) (t : DateTime) (hv : Valid t)
    (hd1 : 1 ≤ d) (hd2 : d ≤ 31) (hh : h ≤ 23) (hmi : mi ≤ 59) :
    calculate_next_run "monthly" (.dhm d h mi) t =
        ⟨nextMonthYear t, nextMonthMonth t,
          if d ≤ daysInMonth (nextMonthYear t) (nextMonthMonth t) then d
          else daysInMonth (nextMonthYear t) (nextMonthMonth t),
          h, mi, 0, 0⟩ ∧
      Valid (calculate_next_run "monthly" (.dhm d h mi) t) := by
  have heq : calculate_next_run "monthly" (.dhm d h mi) t
      = monthlyNextTarget d h mi t := by
    rw [calc_monthly, if_pos ⟨hh, hmi⟩,
      if_pos (monthlyNextTarget_gt d h mi t hv)]
  rw [heq]
  refine ⟨?_, Valid_monthlyNextTarget d h mi t hv hh hmi⟩
  unfold monthlyNextTarget
  have hcd : clampedDay d (nextMonthYear t) (nextMonthMonth t)
      = if d ≤ daysInMonth (nextMonthYear t) (nextMonthMonth t) then d
        else daysInMonth (nextMonthYear t) (nextMonthMonth t) := by
    unfold clampedDay
    split_ifs <;> omega
  rw [hcd]

/-- Witness for C6: monthly `(day=31, hour=0, minute=0)` from reference
2024-01-20T00:00:00 yields 2024-02-29T00:00:00 (leap-year February). -/
theorem C6_monthly_clamps_witness :
    Valid (⟨2024, 1, 20, 0, 0, 0, 0⟩ : DateTime) ∧
      (calculate_next_run "monthly" (.dhm 31 0 0) ⟨2024, 1, 20, 0, 0, 0, 0⟩ =
          ⟨nextMonthYear ⟨2024, 1, 20, 0, 0, 0, 0⟩,
            nextMonthMonth ⟨2024, 1, 20, 0, 0, 0, 0⟩,
            if 31 ≤ daysInMonth (nextMonthYear ⟨2024, 1, 20, 0, 0, 0, 0⟩)
                (nextMonthMonth ⟨2024, 1, 20, 0, 0, 0, 0⟩) then 31
            else daysInMonth (nextMonthYear ⟨2024, 1, 20, 0, 0, 0, 0⟩)
                (nextMonthMonth ⟨2024, 1, 20, 0, 0, 0, 0⟩),
            0, 0, 0, 0⟩ ∧
        Valid (calculate_next_run "monthly" (.dhm 31 0 0)
          ⟨2024, 1, 20, 0, 0, 0, 0⟩)) ∧
      calculate_next_run "monthly" (.dhm 31 0 0) ⟨2024, 1, 20, 0, 0, 0, 0⟩
        = ⟨2024, 2, 29, 0, 0, 0, 0⟩ :=
  ⟨by decide,
    C6_monthly_clamps 31 0 0 _ (by decide) (by decide) (by decide)
      (by decide) (by decide),
    by decide⟩

/-- C7: persistence round-trip: reloading the record written for any task
reproduces its name, source, destination, compression mode and recurrence
(frequency and parameters) exactly — `last_run` included — while `next_run`
is recomputed from the reload time; the stored task's own `next_run` has no
influence on the reloaded task (it is not part of the record). -/
theorem C7_roundtrip (t : BackupTask) (loadTime : DateTime) :
    (loadTask (to_dict t) loadTime).name = t.name ∧
      (loadTask (to_dict t) loadTime).source = t.source ∧
      (loadTask (to_dict t) loadTime).destination = t.destination ∧
      (loadTask (to_dict t) loadTime).compression = t.compression ∧
      (loadTask (to_dict t) loadTime).frequency = t.frequency ∧
      (loadTask (to_dict t) loadTime).time_params = t.time_params ∧
      (loadTask (to_dict t) loadTime).last_run = t.last_run ∧
      (loadTask (to_dict t) loadTime).next_run
        = calculate_next_run t.frequency t.time_params loadTime ∧
      ∀ nr : DateTime,
        loadTask (to_dict { t with next_run := nr }) loadTime
          = loadTask (to_dict t) loadTime :=
  ⟨rfl, rfl, rfl, rfl, rfl, rfl, rfl, rfl, fun _ => rfl⟩

/-- C8: for every valid reference time and hourly minute parameter
`m ≤ 59`, the hourly computation is strictly after the reference, lands on
minute `m` with zero seconds and microseconds, and lies within one hour of
the reference. -/
theorem C8_hourly_contract (m : Nat) (t : DateTime) (hv : Valid t)
    (hm : m ≤ 59) :
    dtAbs t < dtAbs (calculate_next_run "hourly" (.minuteOnly m) t) ∧
      (calculate_next_run "hourly" (.minuteOnly m) t).minute = m ∧
      (calculate_next_run "hourly" (.minuteOnly m) t).second = 0 ∧
      (calculate_next_run "hourly" (.minuteOnly m) t).microsecond = 0 ∧
      dtAbs (calculate_next_run "hourly" (.minuteOnly m) t)
        ≤ dtAbs t + 3600000000 := by
  have hgt := hourlyNext_gt m t hv
  rw [calc_hourly]
  unfold hourlyNext at hgt ⊢
  rw [if_pos hm] at hgt ⊢
  split_ifs at hgt ⊢ with hle
  · have hvb := Valid_replace_min t hv m hm
    have habs := dtAbs_addHour _ hvb
    refine ⟨hgt, ?_, ?_, ?_, ?_⟩
    · rw [addHour_minute]
    · rw [addHour_second]
    · rw [addHour_microsecond]
    · rw [habs]
      omega
  · obtain ⟨hy, h1, h2, h3, h4, h5, h6, h7, h8⟩ := hv
    refine ⟨hgt, rfl, rfl, rfl, ?_⟩
    unfold dtAbs
    simp
    omega

/-- Witness for C8: minute 30 from 2024-01-01T10:15:00 gives
2024-01-01T10:30:00. -/
theorem C8_hourly_contract_witness :
    Valid (⟨2024, 1, 1, 10, 15, 0, 0⟩ : DateTime) ∧
      (dtAbs (⟨2024, 1, 1, 10, 15, 0, 0⟩ : DateTime)
          < dtAbs (calculate_next_run "hourly" (.minuteOnly 30)
              ⟨2024, 1, 1, 10, 15, 0, 0⟩) ∧
        (calculate_next_run "hourly" (.minuteOnly 30)
          ⟨2024, 1, 1, 10, 15, 0, 0⟩).minute = 30 ∧
        (calculate_next_run "hourly" (.minuteOnly 30)
          ⟨2024, 1, 1, 10, 15, 0, 0⟩).second = 0 ∧
        (calculate_next_run "hourly" (.minuteOnly 30)
          ⟨2024, 1, 1, 10, 15, 0, 0⟩).microsecond = 0 ∧
        dtAbs (calculate_next_run "hourly" (.minuteOnly 30)
            ⟨2024, 1, 1, 10, 15, 0, 0⟩)
          ≤ dtAbs (⟨2024, 1, 1, 10, 15, 0, 0⟩ : DateTime) + 3600000000) ∧
      calculate_next_run "hourly" (.minuteOnly 30) ⟨2024, 1, 1, 10, 15, 0, 0⟩
        = ⟨2024, 1, 1, 10, 30, 0, 0⟩ :=
  ⟨by decide, C8_hourly_contract 30 _ (by decide) (by decide), by decide⟩

/-- C9: a task whose frequency string is not one of the four recognized kinds
gets `next_run = now` back unchanged (the final `return now` of
`calculate_next_run`), so the scheduler's claim step leaves it due again at
the very same tick time — it fires on every tick. -/
theorem C9_unknown_frequency_still_due (task : BackupTask) (now : DateTime)
    (hf : ¬(task.frequency = "hourly" ∨ task.frequency = "daily" ∨
      task.frequency = "weekly" ∨ task.frequency = "monthly"))
    (hdue : isDue task now = true) :
    calculate_next_run task.frequency task.time_params now = now ∧
      isDue (claimTask task now) now = true := by
  push_neg at hf
  obtain ⟨h1, h2, h3, h4⟩ := hf
  have hcalc : calculate_next_run task.frequency task.time_params now = now := by
    unfold calculate_next_run
    rw [if_neg h1, if_neg h2, if_neg h3, if_neg h4]
  refine ⟨hcalc, ?_⟩
  unfold claimTask
  rw [if_pos hdue]
  unfold isDue
  simp [hcalc]

/-- Witness for C9: a task with frequency "yearly" stays due after claiming. -/
theorem C9_unknown_frequency_still_due_witness :
    isDue ⟨"t", "s", "d", false, "yearly", .minuteOnly 0, none,
        ⟨2024, 1, 1, 0, 0, 0, 0⟩⟩ ⟨2024, 1, 1, 0, 0, 0, 0⟩ = true ∧
      isDue (claimTask ⟨"t", "s", "d", false, "yearly", .minuteOnly 0, none,
            ⟨2024, 1, 1, 0, 0, 0, 0⟩⟩ ⟨2024, 1, 1, 0, 0, 0, 0⟩)
          ⟨2024, 1, 1, 0, 0, 0, 0⟩ = true :=
  ⟨by decide,
    (C9_unknown_frequency_still_due _ _ (by decide) (by decide)).2⟩

/-- C10: confirming the edit dialog replaces the registry entry at the edited
index with a freshly constructed `BackupTask`, whose `last_run` is `None`
(the pre-edit value is not preserved) and whose `next_run` is recomputed from
the construction time. -/
theorem C10_edit_resets_last_run (tasks : List BackupTask) (i : Nat)
    (hi : i < tasks.length) (n s d : String) (c : Bool) (f : String)
    (tp : TimeParams) (now : DateTime) :
    (edit_task tasks i (mkBackupTask n s d c f tp now))[i]?
        = some (mkBackupTask n s d c f tp now) ∧
      (mkBackupTask n s d c f tp now).last_run = none ∧
      (mkBackupTask n s d c f tp now).next_run
        = calculate_next_run f tp now := by
  refine ⟨?_, rfl, rfl⟩
  unfold edit_task
  exact List.getElem?_set_eq_of_lt _ hi

/-- Witness for C10: editing the only task of a registry whose `last_run` was
set replaces it with a fresh task whose `last_run` is `None`. -/
theorem C10_edit_resets_last_run_witness :
    0 < ([⟨"old", "s0", "d0", false, "daily", .hm 1 0,
          some ⟨2024, 1, 1, 1, 0, 0, 0⟩, ⟨2024, 1, 2, 1, 0, 0, 0⟩⟩]
        : List BackupTask).length ∧
      (edit_task [⟨"old", "s0", "d0", false, "daily", .hm 1 0,
            some ⟨2024, 1, 1, 1, 0, 0, 0⟩, ⟨2024, 1, 2, 1, 0, 0, 0⟩⟩] 0
          (mkBackupTask "new" "s1" "d1" true "hourly" (.minuteOnly 30)
            ⟨2024, 2, 1, 12, 0, 0, 0⟩))[0]?
        = some (mkBackupTask "new" "s1" "d1" true "hourly" (.minuteOnly 30)
            ⟨2024, 2, 1, 12, 0, 0, 0⟩) ∧
      (mkBackupTask "new" "s1" "d1" true "hourly" (.minuteOnly 30)
        ⟨2024, 2, 1, 12, 0, 0, 0⟩).last_run = none :=
  ⟨by decide,
    (C10_edit_resets_last_run
      [⟨"old", "s0", "d0", false, "daily", .hm 1 0,
        some ⟨2024, 1, 1, 1, 0, 0, 0⟩, ⟨2024, 1, 2, 1, 0, 0, 0⟩⟩] 0
      (by decide) "new" "s1" "d1" true "hourly"
      (.minuteOnly 30) ⟨2024, 2, 1, 12, 0, 0, 0⟩).1,
    (C10_edit_resets_last_run
      [⟨"old", "s0", "d0", false, "daily", .hm 1 0,
        some ⟨2024, 1, 1, 1, 0, 0, 0⟩, ⟨2024, 1, 2, 1, 0, 0, 0⟩⟩] 0
      (by decide) "new" "s1" "d1" true "hourly"
      (.minuteOnly 30) ⟨2024, 2, 1, 12, 0, 0, 0⟩).2.1⟩

end Reservator
